import Mathlib

/-!
# Connection-resilience loop of `bme688.c`

A shallow embedding of `app_main`, `wifi_init_sta` and `tcp_client_task` from
`src/bme688/main/bme688.c`.

The task is an infinite loop that blocks in four lwIP calls (`socket`, `connect`, `send`,
`recv`).  Between two of these calls the code is straight-line, so the task is embedded as a
transition function on its four blocking call sites: a step consumes the value returned by the
pending call and yields the actions performed up to the next blocking call.

What the environment decides (return values, received bytes, state of the WiFi link) is an
input; `portTICK_PERIOD_MS`, a FreeRTOS macro that is not defined in this repository, is a
parameter.
-/

namespace Bme688

/-! ## Constants of the source -/

/-- Port of the server, `#define SERVER_PORT 8888`. -/
def SERVER_PORT : Nat := 8888

/-- Size of `char rx_buffer[128]`. -/
def RX_BUFFER_SIZE : Nat := 128

/-- Size of `char payload[128]`. -/
def PAYLOAD_SIZE : Nat := 128

/-- Milliseconds in the expression `2000 / portTICK_PERIOD_MS`. -/
def DELAY_MS : Nat := 2000

/-! ## The payload: `snprintf(payload, sizeof(payload), "...", temperatura, humedad)` -/

/-- A binary floating-point value `num / 2 ^ exp`.  The literals `25.5` and `57.0` of the source
are `51 / 2` and `57 / 1`: both are exact in `float` and stay exact when promoted to `double`
for the variadic call. -/
structure Dyadic where
  num : Nat
  exp : Nat
  deriving DecidableEq, Repr

/-- Value of `float temperatura = 25.5`. -/
def temperatura : Dyadic := ⟨51, 1⟩

/-- Value of `float humedad = 57.0`. -/
def humedad : Dyadic := ⟨57, 0⟩

/-- The value times 100 rounded to the nearest integer, ties to even: the number whose decimal
digits the conversion `%.2f` prints. -/
def Dyadic.centi (d : Dyadic) : Nat :=
  let q := d.num * 100 / 2 ^ d.exp
  let r := d.num * 100 % 2 ^ d.exp
  if 2 * r < 2 ^ d.exp then q
  else if 2 ^ d.exp < 2 * r then q + 1
  else if q % 2 = 0 then q else q + 1

/-- ASCII decimal digits of a natural number. -/
def decimal (n : Nat) : List Nat := (Nat.toDigits 10 n).map Char.toNat

/-- Bytes printed by the conversion `%.2f`. -/
def fmt_2f (d : Dyadic) : List Nat :=
  decimal (d.centi / 100) ++ [46] ++ decimal (d.centi % 100 / 10) ++ decimal (d.centi % 10)

/-- UTF-8 encoding of one code point. -/
def utf8 (c : Nat) : List Nat :=
  if c < 0x80 then [c]
  else if c < 0x800 then [0xC0 + c / 64, 0x80 + c % 64]
  else if c < 0x10000 then [0xE0 + c / 4096, 0x80 + c / 64 % 64, 0x80 + c % 64]
  else [0xF0 + c / 262144, 0x80 + c / 4096 % 64, 0x80 + c / 64 % 64, 0x80 + c % 64]

/-- Bytes of a string literal of the source file, which is UTF-8 encoded. -/
def bytesOf (s : String) : List Nat := s.toList.flatMap fun c => utf8 c.toNat

/-- The format string of the `snprintf` call. -/
def payloadFormat : List Nat := bytesOf "Temperatura: %.2f °C, Humedad: %.2f %%"

/-- Expansion of a format string: `%.2f` consumes one argument, `%%` prints a percent sign, every
other byte is copied. -/
def formatBytes : List Nat → List Dyadic → List Nat
  | 37 :: 46 :: 50 :: 102 :: rest, a :: args => fmt_2f a ++ formatBytes rest args
  | 37 :: 37 :: rest, args => 37 :: formatBytes rest args
  | c :: rest, args => c :: formatBytes rest args
  | [], _ => []

/-- Contents `snprintf(buf, size, ...)` leaves in `buf`: at most `size - 1` bytes of the
expansion, then a NUL. -/
def snprintf (size : Nat) (expansion : List Nat) : List Nat :=
  expansion.take (size - 1) ++ [0]

/-- Length of a C string: the number of bytes before the first NUL. -/
def strlen (buf : List Nat) : Nat := (buf.takeWhile fun b => b ≠ 0).length

/-- The buffer `payload` after the `snprintf` call of the inner loop. -/
def payload : List Nat :=
  snprintf PAYLOAD_SIZE (formatBytes payloadFormat [temperatura, humedad])

/-! ## The environment and the observable actions -/

/-- What the environment hands back when a blocking call returns: the return value, the bytes
stored in the caller's buffer (meaningful for `recv` only), and whether the WiFi link is up at
that moment.  The source never reads the link state. -/
structure Outcome where
  ret : Int
  data : List Nat
  link : Bool
  deriving DecidableEq, Repr

/-- Calls of `app_main` and `wifi_init_sta`; every one of them returns without waiting for the
link, and only the result of `nvs_flash_init` is looked at. -/
inductive InitCall where
  | nvs_flash_init
  | esp_netif_init
  | esp_event_loop_create_default
  | esp_netif_create_default_wifi_sta
  | esp_wifi_init
  | esp_wifi_set_mode
  | esp_wifi_set_config
  | esp_wifi_start
  | esp_wifi_connect
  | xTaskCreate
  deriving DecidableEq, Repr

/-- Actions of the program, in program order.  Diagnostic `ESP_LOGx` lines other than the response
log are left out. -/
inductive Event where
  /-- The call `socket(AF_INET, SOCK_STREAM, IPPROTO_IP)` returned `ret`. -/
  | socketCall (ret : Int)
  /-- The call `connect(sock, 192.168.4.1:8888)` returned `ret`. -/
  | connectCall (sock : Int) (ret : Int)
  /-- The call `send(sock, payload, len, 0)` returned `ret`; `bytes` are the `len` bytes
  handed over. -/
  | sendCall (sock : Int) (bytes : List Nat) (len : Nat) (ret : Int)
  /-- The call `recv(sock, rx_buffer, maxLen, 0)` returned `ret`. -/
  | recvCall (sock : Int) (maxLen : Nat) (ret : Int)
  /-- The call `close(sock)`. -/
  | closeCall (sock : Int)
  /-- The call `vTaskDelay(ticks)`. -/
  | delay (ticks : Nat)
  /-- The store `rx_buffer[idx] = 0`. -/
  | storeRx (idx : Int)
  /-- The line `ESP_LOGI(..., "Respuesta del servidor: %s", rx_buffer)`, with the contents of
  `rx_buffer` at that point. -/
  | logResponse (buf : List Nat)
  /-- A start-up call of `app_main` or `wifi_init_sta`. -/
  | init (call : InitCall)
  /-- The abort of `ESP_ERROR_CHECK` on a result other than `ESP_OK`. -/
  | abort
  deriving DecidableEq, Repr

/-- The blocking call the task is waiting in. -/
inductive Pc where
  /-- Line 84, `socket(...)`. -/
  | atSocket
  /-- Line 92, `connect(sock, ...)`. -/
  | atConnect (sock : Int)
  /-- Line 110, `send(sock, ...)`. -/
  | atSend (sock : Int)
  /-- Line 119, `recv(sock, ...)`. -/
  | atRecv (sock : Int)
  deriving DecidableEq, Repr

/-- State of the task: the pending call and the contents of `rx_buffer`, which is declared
outside both loops and so survives from one session to the next. -/
structure TaskState where
  pc : Pc
  rx_buffer : List Nat
  deriving DecidableEq, Repr

/-- The argument `2000 / portTICK_PERIOD_MS` of every `vTaskDelay` call (unsigned integer
division).  The tick period is positive in every FreeRTOS configuration; for 0 the C expression
has no value and the 0 computed here means nothing. -/
def delayTicks (portTICK_PERIOD_MS : Nat) : Nat := DELAY_MS / portTICK_PERIOD_MS

/-- What `recv(sock, rx_buffer, size, 0)` does to the buffer: the received bytes, at most
`size` of them, overwrite its beginning. -/
def recvInto (buf : List Nat) (size : Nat) (data : List Nat) : List Nat :=
  data.take size ++ buf.drop (data.take size).length

/-- Lines 134-137: `if (sock != -1) { close(sock); }`. -/
def closeAfterLoop (sock : Int) : List Event :=
  if sock ≠ -1 then [Event.closeCall sock] else []

/-- One step of `tcp_client_task`: the pending call returns with `o`, and the task runs up to
its next blocking call. -/
def tcp_client_step (portTICK_PERIOD_MS : Nat) (st : TaskState) (o : Outcome) :
    TaskState × List Event :=
  match st.pc with
  | Pc.atSocket =>
    let sock := o.ret
    if sock < 0 then
      (⟨Pc.atSocket, st.rx_buffer⟩,
        [Event.socketCall sock, Event.delay (delayTicks portTICK_PERIOD_MS)])
    else
      (⟨Pc.atConnect sock, st.rx_buffer⟩, [Event.socketCall sock])
  | Pc.atConnect sock =>
    let err := o.ret
    if err ≠ 0 then
      (⟨Pc.atSocket, st.rx_buffer⟩,
        [Event.connectCall sock err, Event.closeCall sock,
          Event.delay (delayTicks portTICK_PERIOD_MS)])
    else
      (⟨Pc.atSend sock, st.rx_buffer⟩, [Event.connectCall sock err])
  | Pc.atSend sock =>
    let err := o.ret
    let sent := Event.sendCall sock (payload.take (strlen payload)) (strlen payload) err
    if err < 0 then
      (⟨Pc.atSocket, st.rx_buffer⟩, sent :: closeAfterLoop sock)
    else
      (⟨Pc.atRecv sock, st.rx_buffer⟩, [sent])
  | Pc.atRecv sock =>
    let len := o.ret
    let buf := recvInto st.rx_buffer (RX_BUFFER_SIZE - 1) o.data
    let received := Event.recvCall sock (RX_BUFFER_SIZE - 1) len
    if len < 0 then
      (⟨Pc.atSocket, buf⟩, received :: closeAfterLoop sock)
    else if len = 0 then
      (⟨Pc.atSocket, buf⟩, received :: closeAfterLoop sock)
    else
      let buf1 := buf.set len.toNat 0
      (⟨Pc.atSend sock, buf1⟩,
        [received, Event.storeRx len, Event.logResponse buf1,
          Event.delay (delayTicks portTICK_PERIOD_MS)])

/-- The task run on a finite sequence of outcomes: the state reached and the actions performed,
oldest first. -/
def tcp_client_task (portTICK_PERIOD_MS : Nat) :
    TaskState → List Outcome → TaskState × List Event
  | st, [] => (st, [])
  | st, o :: os =>
    let r := tcp_client_step portTICK_PERIOD_MS st o
    let rest := tcp_client_task portTICK_PERIOD_MS r.1 os
    (rest.1, r.2 ++ rest.2)

/-- Entry of the task: `rx_buffer` holds whatever the stack held, and the first blocking call is
`socket`. -/
def taskEntry (rx0 : List Nat) : TaskState := ⟨Pc.atSocket, rx0⟩

/-- An outcome that only carries a return value. -/
def ret (v : Int) : Outcome := ⟨v, [], true⟩

/-! ## Start-up -/

/-- Lines 48-68, `wifi_init_sta`: the station is configured, started and asked to connect; no
result is checked and nothing waits for the association to complete. -/
def wifi_init_sta : List Event :=
  [Event.init InitCall.esp_netif_init,
   Event.init InitCall.esp_event_loop_create_default,
   Event.init InitCall.esp_netif_create_default_wifi_sta,
   Event.init InitCall.esp_wifi_init,
   Event.init InitCall.esp_wifi_set_mode,
   Event.init InitCall.esp_wifi_set_config,
   Event.init InitCall.esp_wifi_start,
   Event.init InitCall.esp_wifi_connect]

/-- Lines 141-146, `app_main`, followed by the task it creates: `nvs` is the result of
`nvs_flash_init` (`ESP_OK` is 0). -/
def app_main (portTICK_PERIOD_MS : Nat) (nvs : Int) (rx0 : List Nat) (outcomes : List Outcome) :
    List Event :=
  Event.init InitCall.nvs_flash_init ::
    (if nvs ≠ 0 then [Event.abort]
     else
      wifi_init_sta ++ Event.init InitCall.xTaskCreate ::
        (tcp_client_task portTICK_PERIOD_MS (taskEntry rx0) outcomes).2)

/-! ## Vocabulary of the properties -/

/-- The socket an action operates on, when it is a call on an existing socket. -/
def Event.sock : Event → Option Int
  | Event.connectCall s _ => some s
  | Event.sendCall s _ _ _ => some s
  | Event.recvCall s _ _ => some s
  | Event.closeCall s => some s
  | _ => none

/-- Whether an action is one of the four blocking calls of the task. -/
def Event.isBlockingCall : Event → Bool
  | Event.socketCall _ => true
  | Event.connectCall _ _ => true
  | Event.sendCall _ _ _ _ => true
  | Event.recvCall _ _ _ => true
  | _ => false

/-- The arguments of the `vTaskDelay` calls of a trace. -/
def delaysOf : List Event → List Nat
  | [] => []
  | Event.delay t :: es => t :: delaysOf es
  | _ :: es => delaysOf es

/-- The sockets created and not yet closed after one more action: a successful `socket` adds its
descriptor, `close` removes it. -/
def openAfter (opened : List Int) : Event → List Int
  | Event.socketCall r => if 0 ≤ r then r :: opened else opened
  | Event.closeCall s => opened.erase s
  | _ => opened

/-- The sockets created and not yet closed at the end of a trace that starts with none. -/
def openSockets (trace : List Event) : List Int := trace.foldl openAfter []

/-- The socket the task holds at a call site. -/
def Pc.held : Pc → List Int
  | Pc.atSocket => []
  | Pc.atConnect s => [s]
  | Pc.atSend s => [s]
  | Pc.atRecv s => [s]

/-- Descriptors stored in `sock` past the check of line 85 are not negative. -/
def Pc.SockOk : Pc → Prop
  | Pc.atSocket => True
  | Pc.atConnect s => 0 ≤ s
  | Pc.atSend s => 0 ≤ s
  | Pc.atRecv s => 0 ≤ s

/-- The pending call fails with this outcome: `socket() < 0`, `connect() != 0`, `send() < 0`,
`recv() <= 0` (error or peer close). -/
def Pc.Fails : Pc → Outcome → Prop
  | Pc.atSocket, o => o.ret < 0
  | Pc.atConnect _, o => o.ret ≠ 0
  | Pc.atSend _, o => o.ret < 0
  | Pc.atRecv _, o => o.ret ≤ 0

/-- Where the task goes when the pending call succeeds. -/
def Pc.onSuccess : Pc → Outcome → Pc
  | Pc.atSocket, o => Pc.atConnect o.ret
  | Pc.atConnect s, _ => Pc.atSend s
  | Pc.atSend s, _ => Pc.atRecv s
  | Pc.atRecv s, _ => Pc.atSend s

/-- A failed connection attempt: `socket` fails, or `socket` succeeds and `connect` fails. -/
inductive FailedAttempt where
  | noSocket (created : Outcome)
  | noConnect (created connected : Outcome)

/-- The outcomes a failed attempt consumes. -/
def FailedAttempt.outcomes : FailedAttempt → List Outcome
  | FailedAttempt.noSocket a => [a]
  | FailedAttempt.noConnect a c => [a, c]

/-- The return values that make the attempt a failed one. -/
def FailedAttempt.Valid : FailedAttempt → Prop
  | FailedAttempt.noSocket a => a.ret < 0
  | FailedAttempt.noConnect a c => 0 ≤ a.ret ∧ c.ret ≠ 0

/-- The delay handed to `vTaskDelay` before the next attempt, after the given consecutive
failed attempts of a task that is about to call `socket()` (at its entry, or after a session
ended) with `rx0` in its receive buffer. -/
def backoffDelay (portTICK_PERIOD_MS : Nat) (rx0 : List Nat) (fails : List FailedAttempt) :
    Option Nat :=
  (delaysOf (tcp_client_task portTICK_PERIOD_MS (taskEntry rx0)
    (fails.flatMap FailedAttempt.outcomes)).2).getLast?

/-- Progress of one socket through the stop-and-wait protocol. -/
inductive Phase where
  /-- No socket is held. -/
  | idle
  /-- The socket exists and `connect` has not been called. -/
  | created (sock : Int)
  /-- The socket is connected and no payload is in flight: a `send` may be issued. -/
  | ready (sock : Int)
  /-- A `send` succeeded and its `recv` has not been issued. -/
  | awaiting (sock : Int)
  /-- A call on the socket failed: only `close` may follow. -/
  | dead (sock : Int)
  deriving DecidableEq, Repr

/-- The stop-and-wait monitor: the phase after one more action, or `none` when the action is not
allowed in the phase.  A `send` is allowed only on a ready socket; a successful `send` must be
followed by `recv` on the same socket; the socket is ready again only after a `recv` of positive
length; after a failed `connect`, `send` or `recv` only `close` is allowed. -/
def Phase.next : Phase → Event → Option Phase
  | Phase.idle, Event.socketCall r => if r < 0 then some Phase.idle else some (Phase.created r)
  | Phase.created s, Event.connectCall t r =>
    if s = t then (if r = 0 then some (Phase.ready s) else some (Phase.dead s)) else none
  | Phase.ready s, Event.sendCall t _ _ r =>
    if s = t then (if r < 0 then some (Phase.dead s) else some (Phase.awaiting s)) else none
  | Phase.awaiting s, Event.recvCall t _ r =>
    if s = t then (if 0 < r then some (Phase.ready s) else some (Phase.dead s)) else none
  | Phase.dead s, Event.closeCall t => if s = t then some Phase.idle else none
  | p, Event.delay _ => some p
  | p, Event.storeRx _ => some p
  | p, Event.logResponse _ => some p
  | _, _ => none

/-- The phase after a whole trace, `none` once an action was not allowed. -/
def Phase.run : Phase → List Event → Option Phase
  | p, [] => some p
  | p, e :: es => (p.next e).bind fun q => q.run es

/-- The phase that corresponds to a call site of the task. -/
def Pc.phase : Pc → Phase
  | Pc.atSocket => Phase.idle
  | Pc.atConnect s => Phase.created s
  | Pc.atSend s => Phase.ready s
  | Pc.atRecv s => Phase.awaiting s

/-- The contract of `recv` for a request of `size - 1` bytes: the return value is at most the
requested length. -/
def RecvContract (size : Nat) (o : Outcome) : Prop := o.ret ≤ (size : Int) - 1

/-- The contract of `recv` holds for every outcome of a run that is consumed by a `recv` call. -/
def RecvContractAlong (portTICK_PERIOD_MS : Nat) : TaskState → List Outcome → Prop
  | _, [] => True
  | st, o :: os =>
    ((∃ s, st.pc = Pc.atRecv s) → RecvContract RX_BUFFER_SIZE o) ∧
      RecvContractAlong portTICK_PERIOD_MS (tcp_client_step portTICK_PERIOD_MS st o).1 os

/-- The C string that starts a buffer: the bytes before the first NUL. -/
def cString (buf : List Nat) : List Nat := buf.takeWhile fun b => b ≠ 0

/-- Socket discipline of a trace that starts with the sockets `opened` open: at every point at
most one socket is open, `socket` is called only when none is, and every call on a socket is on
an open one. -/
def Disciplined : List Int → List Event → Prop
  | opened, [] => opened.length ≤ 1
  | opened, e :: es =>
    opened.length ≤ 1 ∧ (∀ r, e = Event.socketCall r → opened = []) ∧
      (∀ s, e.sock = some s → s ∈ opened) ∧ Disciplined (openAfter opened e) es

/-- Whether an action is a `send` call. -/
def Event.isSend : Event → Bool
  | Event.sendCall _ _ _ _ => true
  | _ => false

/-- Outcomes of `k` consecutive sessions in which the peer accepts the connection, takes the
payload and closes: `socket` returns 3, `connect` 0, `send` 40, `recv` 0. -/
def peerClosesSessions : Nat → List Outcome
  | 0 => []
  | k + 1 => ret 3 :: ret 0 :: ret 40 :: ret 0 :: peerClosesSessions k

/-! ## Basic facts about the run -/

theorem task_nil (tick : Nat) (st : TaskState) : tcp_client_task tick st [] = (st, []) := rfl

theorem task_cons (tick : Nat) (st : TaskState) (o : Outcome) (os : List Outcome) :
    tcp_client_task tick st (o :: os) =
      ((tcp_client_task tick (tcp_client_step tick st o).1 os).1,
        (tcp_client_step tick st o).2 ++
          (tcp_client_task tick (tcp_client_step tick st o).1 os).2) :=
  rfl

theorem task_append (tick : Nat) :
    ∀ (xs : List Outcome) (st : TaskState) (ys : List Outcome),
      tcp_client_task tick st (xs ++ ys) =
        ((tcp_client_task tick (tcp_client_task tick st xs).1 ys).1,
          (tcp_client_task tick st xs).2 ++
            (tcp_client_task tick (tcp_client_task tick st xs).1 ys).2)
  | [], st, ys => by simp [task_nil]
  | x :: xs, st, ys => by
    simp only [List.cons_append, task_cons, task_append tick xs, List.append_assoc]

theorem closeAfterLoop_of_nonneg {s : Int} (h : 0 ≤ s) :
    closeAfterLoop s = [Event.closeCall s] := by
  have : s ≠ -1 := by omega
  simp [closeAfterLoop, this]

/-- The program counter after a step depends on the outcome only. -/
theorem step_pc (tick : Nat) (st : TaskState) (o : Outcome) :
    (st.pc.Fails o → (tcp_client_step tick st o).1.pc = Pc.atSocket) ∧
      (¬ st.pc.Fails o → (tcp_client_step tick st o).1.pc = st.pc.onSuccess o) := by
  obtain ⟨pc, buf⟩ := st
  cases pc with
  | atSocket =>
    by_cases h : o.ret < 0 <;> simp [tcp_client_step, Pc.Fails, Pc.onSuccess, h]
  | atConnect s =>
    by_cases h : o.ret = 0 <;> simp [tcp_client_step, Pc.Fails, Pc.onSuccess, h]
  | atSend s =>
    by_cases h : o.ret < 0 <;> simp [tcp_client_step, Pc.Fails, Pc.onSuccess, h]
  | atRecv s =>
    by_cases h : o.ret < 0
    · have h2 : o.ret ≤ 0 := by omega
      simp [tcp_client_step, Pc.Fails, Pc.onSuccess, h, h2]
    · by_cases h0 : o.ret = 0
      · simp [tcp_client_step, Pc.Fails, Pc.onSuccess, h0]
      · have h2 : ¬ o.ret ≤ 0 := by omega
        simp [tcp_client_step, Pc.Fails, Pc.onSuccess, h, h0, h2]

theorem step_sockOk (tick : Nat) (st : TaskState) (o : Outcome) (h : st.pc.SockOk) :
    (tcp_client_step tick st o).1.pc.SockOk := by
  by_cases hf : st.pc.Fails o
  · rw [(step_pc tick st o).1 hf]; trivial
  · rw [(step_pc tick st o).2 hf]
    obtain ⟨pc, buf⟩ := st
    cases pc with
    | atSocket =>
      simp only [Pc.Fails, not_lt] at hf
      simpa [Pc.onSuccess, Pc.SockOk] using hf
    | atConnect s => simpa [Pc.onSuccess, Pc.SockOk] using h
    | atSend s => simpa [Pc.onSuccess, Pc.SockOk] using h
    | atRecv s => simpa [Pc.onSuccess, Pc.SockOk] using h

theorem task_sockOk (tick : Nat) :
    ∀ (os : List Outcome) (st : TaskState), st.pc.SockOk →
      (tcp_client_task tick st os).1.pc.SockOk
  | [], _, h => h
  | o :: os, st, h => by
    rw [task_cons]
    exact task_sockOk tick os _ (step_sockOk tick st o h)

theorem entry_sockOk (tick : Nat) (rx0 : List Nat) (os : List Outcome) :
    (tcp_client_task tick (taskEntry rx0) os).1.pc.SockOk :=
  task_sockOk tick os (taskEntry rx0) trivial

/-! ## Socket discipline -/

theorem step_disciplined (tick : Nat) (st : TaskState) (o : Outcome) (h : st.pc.SockOk)
    (rest : List Event)
    (hrest : Disciplined (tcp_client_step tick st o).1.pc.held rest) :
    Disciplined st.pc.held ((tcp_client_step tick st o).2 ++ rest) := by
  obtain ⟨pc, buf⟩ := st
  cases pc with
  | atSocket =>
    by_cases hr : o.ret < 0
    · have h0 : ¬ 0 ≤ o.ret := by omega
      simp only [tcp_client_step, hr, if_true] at hrest ⊢
      simpa [Disciplined, openAfter, Pc.held, Event.sock, h0] using hrest
    · have h0 : 0 ≤ o.ret := by omega
      simp only [tcp_client_step, hr, if_false] at hrest ⊢
      simpa [Disciplined, openAfter, Pc.held, Event.sock, h0] using hrest
  | atConnect s =>
    by_cases hr : o.ret = 0
    · simp only [tcp_client_step, hr] at hrest ⊢
      simpa [Disciplined, openAfter, Pc.held, Event.sock] using hrest
    · simp only [tcp_client_step, ne_eq, hr, not_false_eq_true, if_true] at hrest ⊢
      simpa [Disciplined, openAfter, Pc.held, Event.sock] using hrest
  | atSend s =>
    have hs : 0 ≤ s := h
    by_cases hr : o.ret < 0
    · simp only [tcp_client_step, hr, if_true, closeAfterLoop_of_nonneg hs] at hrest ⊢
      simpa [Disciplined, openAfter, Pc.held, Event.sock] using hrest
    · simp only [tcp_client_step, hr, if_false] at hrest ⊢
      simpa [Disciplined, openAfter, Pc.held, Event.sock] using hrest
  | atRecv s =>
    have hs : 0 ≤ s := h
    by_cases hr : o.ret < 0
    · simp only [tcp_client_step, hr, if_true, closeAfterLoop_of_nonneg hs] at hrest ⊢
      simpa [Disciplined, openAfter, Pc.held, Event.sock] using hrest
    · by_cases h0 : o.ret = 0
      · simp only [tcp_client_step, h0, closeAfterLoop_of_nonneg hs] at hrest ⊢
        simpa [Disciplined, openAfter, Pc.held, Event.sock] using hrest
      · simp only [tcp_client_step, hr, h0, if_false] at hrest ⊢
        simpa [Disciplined, openAfter, Pc.held, Event.sock] using hrest

theorem task_disciplined (tick : Nat) :
    ∀ (os : List Outcome) (st : TaskState), st.pc.SockOk →
      Disciplined st.pc.held (tcp_client_task tick st os).2
  | [], st, _ => by
    obtain ⟨pc, buf⟩ := st
    cases pc <;> simp [task_nil, Disciplined, Pc.held]
  | o :: os, st, h => by
    rw [task_cons]
    exact step_disciplined tick st o h _
      (task_disciplined tick os _ (step_sockOk tick st o h))

theorem disciplined_split :
    ∀ (pre : List Event) (opened : List Int) (post : List Event),
      Disciplined opened (pre ++ post) →
        (pre.foldl openAfter opened).length ≤ 1 ∧
          (∀ r rest, post = Event.socketCall r :: rest → pre.foldl openAfter opened = []) ∧
          (∀ e rest s, post = e :: rest → e.sock = some s → s ∈ pre.foldl openAfter opened)
  | [], opened, post, h => by
    cases post with
    | nil => exact ⟨h, by simp, by simp⟩
    | cons e es =>
      obtain ⟨h1, h2, h3, _⟩ := h
      refine ⟨h1, ?_, ?_⟩
      · intro r rest hp
        simp only [List.cons.injEq] at hp
        exact h2 r hp.1
      · intro e1 rest s hp hs
        simp only [List.cons.injEq] at hp
        exact h3 s (hp.1 ▸ hs)
  | e :: pre, opened, post, h => by
    obtain ⟨_, _, _, h4⟩ := h
    exact disciplined_split pre (openAfter opened e) post h4

theorem task_atSocket_head (tick : Nat) (buf : List Nat) (o : Outcome) (os : List Outcome) :
    ∃ rest, (tcp_client_task tick ⟨Pc.atSocket, buf⟩ (o :: os)).2 =
      Event.socketCall o.ret :: rest := by
  rw [task_cons]
  by_cases h : o.ret < 0
  · exact ⟨_, by simp only [tcp_client_step, h, if_true]; rfl⟩
  · exact ⟨_, by simp only [tcp_client_step, h, if_false]; rfl⟩

/-- A failing `send` or `recv` on a held socket is followed by `close` of that socket, and the
task is back at `socket`. -/
theorem step_teardown (tick : Nat) (st : TaskState) (o : Outcome) (s : Int)
    (hok : st.pc.SockOk)
    (hfail : (st.pc = Pc.atSend s ∧ o.ret < 0) ∨ (st.pc = Pc.atRecv s ∧ o.ret ≤ 0)) :
    ∃ failing buf,
      (failing = Event.sendCall s (payload.take (strlen payload)) (strlen payload) o.ret ∨
        failing = Event.recvCall s (RX_BUFFER_SIZE - 1) o.ret) ∧
      tcp_client_step tick st o = (⟨Pc.atSocket, buf⟩, [failing, Event.closeCall s]) := by
  obtain ⟨pc, buf⟩ := st
  rcases hfail with ⟨hpc, hr⟩ | ⟨hpc, hr⟩
  · simp only at hpc
    subst hpc
    have hs : 0 ≤ s := hok
    exact ⟨_, buf, Or.inl rfl, by
      simp only [tcp_client_step, hr, if_true, closeAfterLoop_of_nonneg hs]⟩
  · simp only at hpc
    subst hpc
    have hs : 0 ≤ s := hok
    by_cases hneg : o.ret < 0
    · exact ⟨_, recvInto buf (RX_BUFFER_SIZE - 1) o.data, Or.inr rfl, by
        simp only [tcp_client_step, hneg, if_true, closeAfterLoop_of_nonneg hs]⟩
    · have h0 : o.ret = 0 := by omega
      exact ⟨_, recvInto buf (RX_BUFFER_SIZE - 1) o.data, Or.inr rfl, by
        simp only [tcp_client_step, h0, closeAfterLoop_of_nonneg hs]
        simp⟩

/-! ## Delays of failed attempts -/

theorem delaysOf_append : ∀ (xs ys : List Event), delaysOf (xs ++ ys) = delaysOf xs ++ delaysOf ys
  | [], ys => rfl
  | e :: xs, ys => by
    cases e <;> simp [delaysOf, delaysOf_append xs ys]

/-- A failed attempt leaves the task at `socket` and hands one delay to `vTaskDelay`. -/
theorem failed_attempt_run (tick : Nat) (buf : List Nat) (f : FailedAttempt) (h : f.Valid) :
    (tcp_client_task tick ⟨Pc.atSocket, buf⟩ f.outcomes).1 = ⟨Pc.atSocket, buf⟩ ∧
      delaysOf (tcp_client_task tick ⟨Pc.atSocket, buf⟩ f.outcomes).2 = [delayTicks tick] := by
  cases f with
  | noSocket a =>
    have ha : a.ret < 0 := h
    simp [FailedAttempt.outcomes, task_cons, task_nil, tcp_client_step, ha, delaysOf]
  | noConnect a c =>
    obtain ⟨ha, hc⟩ := h
    have ha2 : ¬ a.ret < 0 := by omega
    simp [FailedAttempt.outcomes, task_cons, task_nil, tcp_client_step, ha2, hc, delaysOf]

theorem failed_attempts_run (tick : Nat) (buf : List Nat) :
    ∀ (fails : List FailedAttempt), (∀ f ∈ fails, f.Valid) →
      (tcp_client_task tick ⟨Pc.atSocket, buf⟩ (fails.flatMap FailedAttempt.outcomes)).1 =
          ⟨Pc.atSocket, buf⟩ ∧
        delaysOf
            (tcp_client_task tick ⟨Pc.atSocket, buf⟩
              (fails.flatMap FailedAttempt.outcomes)).2 =
          List.replicate fails.length (delayTicks tick)
  | [], _ => by simp [task_nil, delaysOf]
  | f :: fs, h => by
    have hf := failed_attempt_run tick buf f (h f (List.mem_cons_self f fs))
    have ih := failed_attempts_run tick buf fs (fun g hg => h g (List.mem_cons_of_mem f hg))
    rw [List.flatMap_cons, task_append, hf.1]
    refine ⟨ih.1, ?_⟩
    simp only [delaysOf_append, hf.2, ih.2, List.length_cons]
    rfl

theorem getLast?_replicate_pos (d : Nat) : ∀ (n : Nat), 0 < n →
    (List.replicate n d).getLast? = some d
  | 0, h => absurd h (Nat.lt_irrefl 0)
  | n + 1, _ => by
    rw [List.replicate_succ']
    simp

theorem backoffDelay_eq (tick : Nat) (rx0 : List Nat) (fails : List FailedAttempt)
    (h : ∀ f ∈ fails, f.Valid) (hne : fails ≠ []) :
    backoffDelay tick rx0 fails = some (DELAY_MS / tick) := by
  unfold backoffDelay taskEntry
  rw [(failed_attempts_run tick rx0 fails h).2]
  exact getLast?_replicate_pos _ _ (List.length_pos.mpr hne)

/-! ## Independence of the link state -/

theorem step_link_irrelevant (tick : Nat) (st : TaskState) (o p : Outcome)
    (hr : o.ret = p.ret) (hd : o.data = p.data) :
    tcp_client_step tick st o = tcp_client_step tick st p := by
  obtain ⟨pc, buf⟩ := st
  cases pc <;> simp only [tcp_client_step, hr, hd]

theorem task_link_irrelevant (tick : Nat) :
    ∀ (xs ys : List Outcome) (st : TaskState),
      xs.map (fun o => (o.ret, o.data)) = ys.map (fun o => (o.ret, o.data)) →
        tcp_client_task tick st xs = tcp_client_task tick st ys
  | [], [], _, _ => rfl
  | [], _ :: _, _, h => by simp at h
  | _ :: _, [], _, h => by simp at h
  | x :: xs, y :: ys, st, h => by
    simp only [List.map_cons, List.cons.injEq, Prod.mk.injEq] at h
    rw [task_cons, task_cons, step_link_irrelevant tick st x y h.1.1 h.1.2,
      task_link_irrelevant tick xs ys _ h.2]

/-! ## Sessions that the peer closes -/

theorem peer_closes_run (tick : Nat) :
    ∀ (k : Nat) (buf : List Nat),
      delaysOf (tcp_client_task tick ⟨Pc.atSocket, buf⟩ (peerClosesSessions k)).2 = [] ∧
        ((tcp_client_task tick ⟨Pc.atSocket, buf⟩ (peerClosesSessions k)).2.filter
          Event.isSend).length = k
  | 0, buf => by simp [peerClosesSessions, task_nil, delaysOf]
  | k + 1, buf => by
    have ih := peer_closes_run tick k (recvInto buf (RX_BUFFER_SIZE - 1) [])
    simp only [peerClosesSessions, task_cons, tcp_client_step, ret]
    simp [delaysOf, closeAfterLoop, Event.isSend, List.filter_cons, ih.1, ih.2]

/-! ## Blocking calls -/

theorem step_blocking_calls (tick : Nat) (st : TaskState) (o : Outcome) :
    ((tcp_client_step tick st o).2.filter Event.isBlockingCall).length = 1 := by
  obtain ⟨pc, buf⟩ := st
  cases pc <;> simp only [tcp_client_step, closeAfterLoop] <;>
    split_ifs <;> simp [Event.isBlockingCall, List.filter_cons]

theorem task_blocking_calls (tick : Nat) :
    ∀ (os : List Outcome) (st : TaskState),
      ((tcp_client_task tick st os).2.filter Event.isBlockingCall).length = os.length
  | [], _ => by simp [task_nil]
  | o :: os, st => by
    rw [task_cons]
    simp only [List.filter_append, List.length_append, step_blocking_calls,
      task_blocking_calls tick os, List.length_cons]
    omega

/-! ## Stop-and-wait -/

theorem step_phase (tick : Nat) (st : TaskState) (o : Outcome) (h : st.pc.SockOk)
    (rest : List Event) :
    Phase.run st.pc.phase ((tcp_client_step tick st o).2 ++ rest) =
      Phase.run (tcp_client_step tick st o).1.pc.phase rest := by
  obtain ⟨pc, buf⟩ := st
  cases pc with
  | atSocket =>
    by_cases hr : o.ret < 0 <;>
      simp [tcp_client_step, hr, Phase.run, Phase.next, Pc.phase]
  | atConnect s =>
    by_cases hr : o.ret = 0 <;>
      simp [tcp_client_step, hr, Phase.run, Phase.next, Pc.phase]
  | atSend s =>
    have hs : 0 ≤ s := h
    by_cases hr : o.ret < 0 <;>
      simp [tcp_client_step, hr, Phase.run, Phase.next, Pc.phase, closeAfterLoop_of_nonneg hs]
  | atRecv s =>
    have hs : 0 ≤ s := h
    by_cases hr : o.ret < 0
    · have h2 : ¬ 0 < o.ret := by omega
      simp [tcp_client_step, hr, h2, Phase.run, Phase.next, Pc.phase,
        closeAfterLoop_of_nonneg hs]
    · by_cases h0 : o.ret = 0
      · simp [tcp_client_step, h0, Phase.run, Phase.next, Pc.phase,
          closeAfterLoop_of_nonneg hs]
      · have h2 : 0 < o.ret := by omega
        simp [tcp_client_step, hr, h0, h2, Phase.run, Phase.next, Pc.phase]

theorem task_phase (tick : Nat) :
    ∀ (os : List Outcome) (st : TaskState), st.pc.SockOk →
      Phase.run st.pc.phase (tcp_client_task tick st os).2 =
        some (tcp_client_task tick st os).1.pc.phase
  | [], _, _ => rfl
  | o :: os, st, h => by
    rw [task_cons, step_phase tick st o h]
    exact task_phase tick os _ (step_sockOk tick st o h)

/-- The monitor does reject: a second `send` before the `recv` of the first is not allowed. -/
theorem monitor_rejects_pipelined_send :
    Phase.run Phase.idle
      [Event.socketCall 3, Event.connectCall 3 0, Event.sendCall 3 [] 0 0,
        Event.sendCall 3 [] 0 0] = none := by
  decide

/-- The monitor does reject: no `send` on a socket whose `connect` failed. -/
theorem monitor_rejects_send_unconnected :
    Phase.run Phase.idle
      [Event.socketCall 3, Event.connectCall 3 (-1), Event.sendCall 3 [] 0 0] = none := by
  decide

/-! ## The receive buffer -/

theorem recvInto_length (buf data : List Nat) (size : Nat) (h : size ≤ buf.length) :
    (recvInto buf size data).length = buf.length := by
  have : (data.take size).length ≤ size := by simp [List.length_take]
  simp only [recvInto, List.length_append, List.length_drop]
  omega

theorem step_buffer_length (tick : Nat) (st : TaskState) (o : Outcome)
    (h : st.rx_buffer.length = RX_BUFFER_SIZE) :
    (tcp_client_step tick st o).1.rx_buffer.length = RX_BUFFER_SIZE := by
  have hr : (recvInto st.rx_buffer (RX_BUFFER_SIZE - 1) o.data).length = RX_BUFFER_SIZE := by
    rw [recvInto_length _ _ _ (by rw [h]; decide), h]
  obtain ⟨pc, buf⟩ := st
  cases pc <;> simp only [tcp_client_step] <;> split_ifs <;>
    first
      | exact h
      | exact hr
      | simpa using hr

theorem task_buffer_length (tick : Nat) :
    ∀ (os : List Outcome) (st : TaskState), st.rx_buffer.length = RX_BUFFER_SIZE →
      (tcp_client_task tick st os).1.rx_buffer.length = RX_BUFFER_SIZE
  | [], _, h => h
  | o :: os, st, h => by
    rw [task_cons]
    exact task_buffer_length tick os _ (step_buffer_length tick st o h)

theorem step_store_index (tick : Nat) (st : TaskState) (o : Outcome) (idx : Int)
    (h : Event.storeRx idx ∈ (tcp_client_step tick st o).2) :
    idx = o.ret ∧ 0 < o.ret ∧ ∃ s, st.pc = Pc.atRecv s := by
  obtain ⟨pc, buf⟩ := st
  cases pc <;> simp only [tcp_client_step, closeAfterLoop] at h <;> split_ifs at h <;>
    simp at h
  rename_i s h1 h2
  exact ⟨h, by omega, s, rfl⟩

theorem task_store_index (tick : Nat) :
    ∀ (os : List Outcome) (st : TaskState) (idx : Int), RecvContractAlong tick st os →
      Event.storeRx idx ∈ (tcp_client_task tick st os).2 → 1 ≤ idx ∧ idx ≤ 127
  | [], _, _, _, h => by simp [task_nil] at h
  | o :: os, st, idx, hc, h => by
    rw [task_cons] at h
    rcases List.mem_append.mp h with h1 | h1
    · obtain ⟨hidx, hpos, hs⟩ := step_store_index tick st o idx h1
      have h3 := hc.1 hs
      simp only [RecvContract, RX_BUFFER_SIZE] at h3
      omega
    · exact task_store_index tick os _ idx hc.2 h1

theorem contract_at_recv (tick : Nat) :
    ∀ (pre : List Outcome) (st : TaskState) (o : Outcome) (post : List Outcome) (s : Int),
      RecvContractAlong tick st (pre ++ o :: post) →
        (tcp_client_task tick st pre).1.pc = Pc.atRecv s → RecvContract RX_BUFFER_SIZE o
  | [], _, _, _, s, hc, hpc => hc.1 ⟨s, hpc⟩
  | p :: pre, st, o, post, s, hc, hpc => by
    rw [task_cons] at hpc
    exact contract_at_recv tick pre _ o post s hc.2 hpc

theorem set_after_data : ∀ (data tail : List Nat) (x : Nat),
    (data ++ x :: tail).set data.length 0 = data ++ 0 :: tail
  | [], _, _ => rfl
  | d :: ds, tail, x => by
    simp only [List.cons_append, List.length_cons, List.set_cons_succ, set_after_data ds tail x]

theorem take_after_data : ∀ (data tail : List Nat), (data ++ tail).take data.length = data
  | [], _ => by simp
  | d :: ds, tail => by simp

theorem get_after_data : ∀ (data tail : List Nat) (x : Nat),
    (data ++ x :: tail).get? data.length = some x
  | [], _, _ => rfl
  | d :: ds, tail, x => by
    simpa using get_after_data ds tail x

theorem cString_after_data : ∀ (data tail : List Nat), 0 ∉ data →
    cString (data ++ 0 :: tail) = data
  | [], _, _ => by simp [cString]
  | d :: ds, tail, h => by
    have hd : d ≠ 0 := fun e => h (e ▸ List.mem_cons_self d ds)
    have ht : 0 ∉ ds := fun e => h (List.mem_cons_of_mem d e)
    have ih := cString_after_data ds tail ht
    simp only [cString] at ih ⊢
    simp only [List.cons_append, List.takeWhile_cons, hd, ne_eq, not_false_eq_true,
      decide_True, if_true, ih]

/-- The buffer after `recv` stored `data` (not longer than the request) and the terminator was
written behind it. -/
theorem terminated_buffer (buf data : List Nat) (hbuf : buf.length = RX_BUFFER_SIZE)
    (hlen : data.length ≤ RX_BUFFER_SIZE - 1) :
    ∃ tail, ((recvInto buf (RX_BUFFER_SIZE - 1) data).set data.length 0) = data ++ 0 :: tail := by
  have htake : data.take (RX_BUFFER_SIZE - 1) = data := List.take_of_length_le hlen
  have hdrop : (buf.drop data.length).length ≠ 0 := by
    simp only [List.length_drop, hbuf]
    simp only [RX_BUFFER_SIZE] at hlen ⊢
    omega
  cases hd : buf.drop data.length with
  | nil => rw [hd] at hdrop; exact absurd rfl hdrop
  | cons x tail =>
    exact ⟨tail, by simp only [recvInto, htake, hd, set_after_data]⟩

/-! ## The claims -/

/-- C3 (session teardown on a send or receive error).  In every run, when `send` on the held
socket `s` returns a negative value, or `recv` on it returns a negative value or 0, the trace
continues with exactly `close(s)` and then the trace of a task that is back at `socket()`:
the rest is empty or starts with a `socket` call, and every later `connect`, `send`, `recv` or
`close` is on a socket created by a `socket` call of that rest and not closed since. -/
theorem session_teardown (tick : Nat) (rx0 : List Nat) (pre : List Outcome) (o : Outcome)
    (post : List Outcome) (s : Int)
    (hfail :
      ((tcp_client_task tick (taskEntry rx0) pre).1.pc = Pc.atSend s ∧ o.ret < 0) ∨
      ((tcp_client_task tick (taskEntry rx0) pre).1.pc = Pc.atRecv s ∧ o.ret ≤ 0)) :
    ∃ failing cont,
      (failing = Event.sendCall s (payload.take (strlen payload)) (strlen payload) o.ret ∨
        failing = Event.recvCall s (RX_BUFFER_SIZE - 1) o.ret) ∧
      (tcp_client_task tick (taskEntry rx0) (pre ++ o :: post)).2 =
        (tcp_client_task tick (taskEntry rx0) pre).2 ++
          failing :: Event.closeCall s :: cont ∧
      (tcp_client_task tick (taskEntry rx0) (pre ++ [o])).1.pc = Pc.atSocket ∧
      (post = [] → cont = []) ∧
      (post ≠ [] → ∃ r rest, cont = Event.socketCall r :: rest) ∧
      (∀ a e b t, cont = a ++ e :: b → e.sock = some t → t ∈ openSockets a) := by
  obtain ⟨failing, buf, hform, hstep⟩ :=
    step_teardown tick _ o s (entry_sockOk tick rx0 pre) hfail
  refine ⟨failing, (tcp_client_task tick ⟨Pc.atSocket, buf⟩ post).2, hform,
    ?_, ?_, ?_, ?_, ?_⟩
  · rw [task_append, task_cons, hstep]
    simp
  · rw [task_append, task_cons, hstep]
    simp [task_nil]
  · intro hp
    subst hp
    rfl
  · intro hp
    cases post with
    | nil => exact absurd rfl hp
    | cons x xs =>
      obtain ⟨rest, hrest⟩ := task_atSocket_head tick buf x xs
      exact ⟨x.ret, rest, hrest⟩
  · intro a e b t hsplit hsock
    have hd := task_disciplined tick post ⟨Pc.atSocket, buf⟩ trivial
    rw [hsplit] at hd
    exact (disciplined_split a [] (e :: b) hd).2.2 e b t rfl hsock

/-- C3, at a concrete run: the peer closes (`recv` returns 0) after one successful send on
socket 3, and the next session runs on socket 4. -/
theorem session_teardown_witness :
    (tcp_client_task 10 (taskEntry (List.replicate 128 0)) [ret 3, ret 0, ret 40]).1.pc =
        Pc.atRecv 3 ∧
      ∃ failing cont,
        (failing = Event.sendCall 3 (payload.take (strlen payload)) (strlen payload) 0 ∨
          failing = Event.recvCall 3 (RX_BUFFER_SIZE - 1) 0) ∧
        (tcp_client_task 10 (taskEntry (List.replicate 128 0))
            ([ret 3, ret 0, ret 40] ++ ret 0 :: [ret 4, ret 0])).2 =
          (tcp_client_task 10 (taskEntry (List.replicate 128 0)) [ret 3, ret 0, ret 40]).2 ++
            failing :: Event.closeCall 3 :: cont ∧
        (tcp_client_task 10 (taskEntry (List.replicate 128 0))
            ([ret 3, ret 0, ret 40] ++ [ret 0])).1.pc = Pc.atSocket ∧
        ([ret 4, ret 0] = [] → cont = []) ∧
        ([ret 4, ret 0] ≠ [] → ∃ r rest, cont = Event.socketCall r :: rest) ∧
        (∀ a e b t, cont = a ++ e :: b → e.sock = some t → t ∈ openSockets a) :=
  ⟨by decide,
    session_teardown 10 (List.replicate 128 0) [ret 3, ret 0, ret 40] (ret 0) [ret 4, ret 0] 3
      (Or.inr ⟨by decide, by decide⟩)⟩

/-- C4 (no leaked sockets).  At every point of every run at most one socket created by the task
is open, and at every `socket` call no socket created before is still open. -/
theorem no_leaked_sockets (tick : Nat) (rx0 : List Nat) (inputs : List Outcome)
    (pre post : List Event)
    (h : (tcp_client_task tick (taskEntry rx0) inputs).2 = pre ++ post) :
    (openSockets pre).length ≤ 1 ∧
      ∀ r rest, post = Event.socketCall r :: rest → openSockets pre = [] := by
  have hd := task_disciplined tick inputs (taskEntry rx0) trivial
  rw [h] at hd
  obtain ⟨h1, h2, _⟩ := disciplined_split pre [] post hd
  exact ⟨h1, h2⟩

/-- C4, at a concrete run: a failed connect on socket 3, a failed send on socket 4, and then
the third `socket` call, made with nothing open. -/
theorem no_leaked_sockets_witness :
    (tcp_client_task 10 (taskEntry (List.replicate 128 0))
        [ret 3, ret (-1), ret 4, ret 0, ret (-1), ret 5]).2 =
      [Event.socketCall 3, Event.connectCall 3 (-1), Event.closeCall 3, Event.delay 200,
        Event.socketCall 4, Event.connectCall 4 0,
        Event.sendCall 4 (payload.take (strlen payload)) (strlen payload) (-1),
        Event.closeCall 4] ++ [Event.socketCall 5] ∧
    openSockets
      [Event.socketCall 3, Event.connectCall 3 (-1), Event.closeCall 3, Event.delay 200,
        Event.socketCall 4, Event.connectCall 4 0,
        Event.sendCall 4 (payload.take (strlen payload)) (strlen payload) (-1),
        Event.closeCall 4] = [] :=
  ⟨by decide,
    (no_leaked_sockets 10 (List.replicate 128 0)
      [ret 3, ret (-1), ret 4, ret 0, ret (-1), ret 5] _ [Event.socketCall 5]
      (by decide)).2 5 [] rfl⟩

/-- C1 (backoff delay), as amended.  For every positive tick period, after any number of
consecutive failed connection attempts (`socket() < 0`, or `connect() != 0`) every delay handed
to `vTaskDelay` is `2000 / portTICK_PERIOD_MS` ticks: the delay is the same for two histories of
the same length, does not decrease with the number of failures, and is positive when the tick
period is at most 2000 ms. -/
theorem backoff_delay_constant (tick : Nat) (rx0 : List Nat) (f1 f2 : List FailedAttempt)
    (htick : 0 < tick) (h1 : ∀ f ∈ f1, f.Valid) (h2 : ∀ f ∈ f2, f.Valid)
    (hn1 : f1 ≠ []) (hn2 : f2 ≠ []) :
    ∃ d1 d2,
      backoffDelay tick rx0 f1 = some d1 ∧ backoffDelay tick rx0 f2 = some d2 ∧
      d1 = 2000 / tick ∧
      delaysOf (tcp_client_task tick (taskEntry rx0)
        (f1.flatMap FailedAttempt.outcomes)).2 = List.replicate f1.length d1 ∧
      (f1.length = f2.length → d1 = d2) ∧
      (f1.length < f2.length → d1 ≤ d2) ∧
      (tick ≤ 2000 → 0 < d1) := by
  refine ⟨2000 / tick, 2000 / tick, backoffDelay_eq tick rx0 f1 h1 hn1,
    backoffDelay_eq tick rx0 f2 h2 hn2, rfl, (failed_attempts_run tick rx0 f1 h1).2,
    fun _ => rfl, fun _ => le_refl _, fun hle => Nat.div_pos hle htick⟩

/-- C1, at a concrete input: tick period 10 ms, one failed attempt against three. -/
theorem backoff_delay_constant_witness :
    ∃ d1 d2,
      backoffDelay 10 (List.replicate 128 0) [FailedAttempt.noSocket (ret (-1))] = some d1 ∧
      backoffDelay 10 (List.replicate 128 0)
        [FailedAttempt.noConnect (ret 3) (ret (-1)), FailedAttempt.noSocket (ret (-1)),
          FailedAttempt.noConnect (ret 4) (ret 1)] = some d2 ∧
      d1 = 2000 / 10 ∧
      delaysOf (tcp_client_task 10 (taskEntry (List.replicate 128 0))
        ([FailedAttempt.noSocket (ret (-1))].flatMap FailedAttempt.outcomes)).2 =
          List.replicate [FailedAttempt.noSocket (ret (-1))].length d1 ∧
      ([FailedAttempt.noSocket (ret (-1))].length =
        [FailedAttempt.noConnect (ret 3) (ret (-1)), FailedAttempt.noSocket (ret (-1)),
          FailedAttempt.noConnect (ret 4) (ret 1)].length → d1 = d2) ∧
      ([FailedAttempt.noSocket (ret (-1))].length <
        [FailedAttempt.noConnect (ret 3) (ret (-1)), FailedAttempt.noSocket (ret (-1)),
          FailedAttempt.noConnect (ret 4) (ret 1)].length → d1 ≤ d2) ∧
      (10 ≤ 2000 → 0 < d1) :=
  backoff_delay_constant 10 (List.replicate 128 0) [FailedAttempt.noSocket (ret (-1))]
    [FailedAttempt.noConnect (ret 3) (ret (-1)), FailedAttempt.noSocket (ret (-1)),
      FailedAttempt.noConnect (ret 4) (ret 1)]
    (by decide) (by simp [FailedAttempt.Valid, ret]) (by simp [FailedAttempt.Valid, ret])
    (by simp) (by simp)

/-- C1 as stated fails: with a positive tick period of 2001 ms the delay after a failed connect
is 0 ticks. -/
theorem backoff_delay_zero :
    (0 : Nat) < 2001 ∧ (FailedAttempt.noConnect (ret 3) (ret (-1))).Valid ∧
      backoffDelay 2001 (List.replicate 128 0) [FailedAttempt.noConnect (ret 3) (ret (-1))] =
        some 0 :=
  ⟨by decide, by simp [FailedAttempt.Valid, ret], by decide⟩

/-- C2 (link gating), as amended.  The program does not look at the link: two runs whose
outcomes differ in the link state only perform the same actions, and when `socket` succeeds the
very next blocking call is `connect` on that socket, followed on failure by `close` and the
delay. -/
theorem link_state_ignored (tick : Nat) (nvs : Int) (rx0 : List Nat) (xs ys pre : List Outcome)
    (a c : Outcome)
    (hsame : xs.map (fun o => (o.ret, o.data)) = ys.map (fun o => (o.ret, o.data)))
    (hpc : (tcp_client_task tick (taskEntry rx0) pre).1.pc = Pc.atSocket)
    (ha : 0 ≤ a.ret) :
    app_main tick nvs rx0 xs = app_main tick nvs rx0 ys ∧
      (tcp_client_task tick (taskEntry rx0) (pre ++ [a, c])).2 =
        (tcp_client_task tick (taskEntry rx0) pre).2 ++
          Event.socketCall a.ret :: Event.connectCall a.ret c.ret ::
            (if c.ret ≠ 0 then [Event.closeCall a.ret, Event.delay (2000 / tick)] else []) := by
  constructor
  · unfold app_main
    rw [task_link_irrelevant tick xs ys _ hsame]
  · have ha2 : ¬ a.ret < 0 := by omega
    rw [task_append]
    generalize tcp_client_task tick (taskEntry rx0) pre = r at hpc ⊢
    obtain ⟨⟨pc, buf⟩, tr⟩ := r
    simp only at hpc
    subst hpc
    by_cases hc : c.ret = 0 <;>
      simp [task_cons, task_nil, tcp_client_step, ha2, hc, delayTicks, DELAY_MS]

/-- C2, at a concrete input: the same return values with the link down and with the link up. -/
theorem link_state_ignored_witness :
    app_main 10 0 (List.replicate 128 0) [⟨3, [], false⟩, ⟨-1, [], false⟩] =
        app_main 10 0 (List.replicate 128 0) [⟨3, [], true⟩, ⟨-1, [], true⟩] ∧
      (tcp_client_task 10 (taskEntry (List.replicate 128 0))
          ([] ++ [⟨3, [], false⟩, ⟨-1, [], false⟩])).2 =
        (tcp_client_task 10 (taskEntry (List.replicate 128 0)) []).2 ++
          Event.socketCall (Outcome.mk 3 [] false).ret ::
            Event.connectCall (Outcome.mk 3 [] false).ret (Outcome.mk (-1) [] false).ret ::
            (if (Outcome.mk (-1) [] false).ret ≠ 0 then
              [Event.closeCall (Outcome.mk 3 [] false).ret, Event.delay (2000 / 10)]
             else []) :=
  link_state_ignored 10 0 (List.replicate 128 0) [⟨3, [], false⟩, ⟨-1, [], false⟩]
    [⟨3, [], true⟩, ⟨-1, [], true⟩] [] ⟨3, [], false⟩ ⟨-1, [], false⟩
    (by decide) (by decide) (by decide)

/-- C2 as stated fails: in a run of `app_main` in which the link is down at every call,
`connect` is called all the same. -/
theorem connect_called_while_link_down :
    (∀ o ∈ [Outcome.mk 3 [] false, Outcome.mk (-1) [] false], o.link = false) ∧
      Event.connectCall 3 (-1) ∈
        app_main 10 0 (List.replicate 128 0) [⟨3, [], false⟩, ⟨-1, [], false⟩] :=
  ⟨by decide, by decide⟩

/-- C5 (a read without a response), as amended.  After a successful `send` the session
survives the `recv` exactly when `recv` returns a positive length: then the socket is not closed
and the next `send` is on the same socket.  A `recv` that returns without data, negative (error
or timeout) or 0 (peer close), ends the session: the socket is closed and the task is back at
`socket()`. -/
theorem recv_result_decides_session (tick : Nat) (rx0 : List Nat) (pre : List Outcome)
    (o : Outcome) (s : Int)
    (hpc : (tcp_client_task tick (taskEntry rx0) pre).1.pc = Pc.atRecv s) :
    (0 < o.ret →
      (tcp_client_step tick (tcp_client_task tick (taskEntry rx0) pre).1 o).1.pc = Pc.atSend s ∧
      ∀ t, Event.closeCall t ∉
        (tcp_client_step tick (tcp_client_task tick (taskEntry rx0) pre).1 o).2) ∧
    (o.ret ≤ 0 →
      (tcp_client_step tick (tcp_client_task tick (taskEntry rx0) pre).1 o).1.pc = Pc.atSocket ∧
      (tcp_client_step tick (tcp_client_task tick (taskEntry rx0) pre).1 o).2 =
        [Event.recvCall s 127 o.ret, Event.closeCall s]) := by
  have hok := entry_sockOk tick rx0 pre
  generalize tcp_client_task tick (taskEntry rx0) pre = r at hpc hok ⊢
  obtain ⟨⟨pc, buf⟩, tr⟩ := r
  simp only at hpc
  subst hpc
  have hs : 0 ≤ s := hok
  constructor
  · intro hpos
    have h1 : ¬ o.ret < 0 := by omega
    have h2 : o.ret ≠ 0 := by omega
    simp [tcp_client_step, h1, h2]
  · intro hle
    by_cases h1 : o.ret < 0
    · simp [tcp_client_step, h1, closeAfterLoop_of_nonneg hs, RX_BUFFER_SIZE]
    · have h2 : o.ret = 0 := by omega
      simp [tcp_client_step, h2, closeAfterLoop_of_nonneg hs, RX_BUFFER_SIZE]

/-- C5, at a concrete input: a session on socket 3 after one successful send. -/
theorem recv_result_decides_session_witness :
    (tcp_client_task 10 (taskEntry (List.replicate 128 0)) [ret 3, ret 0, ret 40]).1.pc =
        Pc.atRecv 3 ∧
      (tcp_client_step 10
          (tcp_client_task 10 (taskEntry (List.replicate 128 0)) [ret 3, ret 0, ret 40]).1
          ⟨2, [79, 75], true⟩).1.pc = Pc.atSend 3 :=
  ⟨by decide,
    ((recv_result_decides_session 10 (List.replicate 128 0) [ret 3, ret 0, ret 40]
      ⟨2, [79, 75], true⟩ 3 (by decide)).1 (by decide)).1⟩

/-- C5 as stated fails: the write succeeds, the read ends without data and without a peer close
(`recv` returns -1), and the socket is closed; the next call is `socket()`, not a `send` on the
same socket. -/
theorem silent_read_closes_session :
    tcp_client_task 10 (taskEntry (List.replicate 128 0))
        [ret 3, ret 0, ret 40, ret (-1)] =
      (⟨Pc.atSocket, List.replicate 128 0⟩,
        [Event.socketCall 3, Event.connectCall 3 0,
          Event.sendCall 3 (bytesOf "Temperatura: 25.50 °C, Humedad: 57.00 %") 40 40,
          Event.recvCall 3 127 (-1), Event.closeCall 3]) := by
  decide

/-- C6 (cadence after a failed cycle), evaluated on the code.  When the peer accepts the
connection, takes the payload and closes, the task closes the socket and goes on to `socket`,
`connect` and `send` with no `vTaskDelay` in between: two consecutive `send` calls are not
separated by a delay, and a run of `k` such sessions performs `k` sends and no delay at all. -/
theorem reconnect_without_delay :
    (tcp_client_task 10 (taskEntry (List.replicate 128 0))
        [ret 3, ret 0, ret 40, ret 0, ret 3, ret 0, ret 40]).2 =
      [Event.socketCall 3, Event.connectCall 3 0,
        Event.sendCall 3 (bytesOf "Temperatura: 25.50 °C, Humedad: 57.00 %") 40 40,
        Event.recvCall 3 127 0, Event.closeCall 3,
        Event.socketCall 3, Event.connectCall 3 0,
        Event.sendCall 3 (bytesOf "Temperatura: 25.50 °C, Humedad: 57.00 %") 40 40] ∧
    ∀ (tick : Nat) (rx0 : List Nat) (k : Nat),
      delaysOf (tcp_client_task tick (taskEntry rx0) (peerClosesSessions k)).2 = [] ∧
        ((tcp_client_task tick (taskEntry rx0) (peerClosesSessions k)).2.filter
          Event.isSend).length = k :=
  ⟨by decide, fun tick rx0 k => peer_closes_run tick k rx0⟩

/-- C7 (scenario A).  When `socket` always succeeds and `connect` fails three times and then
succeeds, the trace is: three times `socket`, failed `connect`, `close` of that socket and one
`vTaskDelay(2000 / portTICK_PERIOD_MS)`; then `socket`, the successful `connect`, and with no
delay in between one `send` on the new socket of the 40 bytes of
"Temperatura: 25.50 °C, Humedad: 57.00 %", which is the whole expansion of the format (shorter
than the 128-byte buffer).  The delay is 2000 ms whenever the tick period divides 2000. -/
theorem scenario_A (tick : Nat) (rx0 : List Nat) (a1 c1 a2 c2 a3 c3 a4 c4 w : Outcome)
    (ha1 : 0 ≤ a1.ret) (ha2 : 0 ≤ a2.ret) (ha3 : 0 ≤ a3.ret) (ha4 : 0 ≤ a4.ret)
    (hc1 : c1.ret ≠ 0) (hc2 : c2.ret ≠ 0) (hc3 : c3.ret ≠ 0) (hc4 : c4.ret = 0) :
    (tcp_client_task tick (taskEntry rx0) [a1, c1, a2, c2, a3, c3, a4, c4, w]).2 =
      [Event.socketCall a1.ret, Event.connectCall a1.ret c1.ret, Event.closeCall a1.ret,
        Event.delay (2000 / tick),
        Event.socketCall a2.ret, Event.connectCall a2.ret c2.ret, Event.closeCall a2.ret,
        Event.delay (2000 / tick),
        Event.socketCall a3.ret, Event.connectCall a3.ret c3.ret, Event.closeCall a3.ret,
        Event.delay (2000 / tick),
        Event.socketCall a4.ret, Event.connectCall a4.ret 0,
        Event.sendCall a4.ret (bytesOf "Temperatura: 25.50 °C, Humedad: 57.00 %") 40 w.ret] ++
        (if w.ret < 0 then [Event.closeCall a4.ret] else []) ∧
    formatBytes payloadFormat [temperatura, humedad] =
      bytesOf "Temperatura: 25.50 °C, Humedad: 57.00 %" ∧
    (formatBytes payloadFormat [temperatura, humedad]).length = 40 ∧
    40 < PAYLOAD_SIZE ∧ strlen payload = 40 ∧
    (tick ∣ 2000 → delayTicks tick * tick = 2000) := by
  have hl : strlen payload = 40 := by decide
  have hp : payload.take 40 = bytesOf "Temperatura: 25.50 °C, Humedad: 57.00 %" := by decide
  have h1 : ¬ a1.ret < 0 := by omega
  have h2 : ¬ a2.ret < 0 := by omega
  have h3 : ¬ a3.ret < 0 := by omega
  have h4 : ¬ a4.ret < 0 := by omega
  refine ⟨?_, by decide, by decide, by decide, hl, fun hd => Nat.div_mul_cancel hd⟩
  by_cases hw : w.ret < 0
  · simp [task_cons, task_nil, tcp_client_step, taskEntry, h1, h2, h3, h4, hc1, hc2, hc3, hc4,
      hw, hp, hl, delayTicks, DELAY_MS, closeAfterLoop_of_nonneg ha4]
  · simp [task_cons, task_nil, tcp_client_step, taskEntry, h1, h2, h3, h4, hc1, hc2, hc3, hc4,
      hw, hp, hl, delayTicks, DELAY_MS]

/-- C7, at a concrete input: sockets 3, 4, 5 refused, socket 6 connected, 40 bytes sent. -/
theorem scenario_A_witness :
    (tcp_client_task 10 (taskEntry (List.replicate 128 0))
        [ret 3, ret (-1), ret 4, ret (-1), ret 5, ret (-1), ret 6, ret 0, ret 40]).2 =
      [Event.socketCall 3, Event.connectCall 3 (-1), Event.closeCall 3, Event.delay 200,
        Event.socketCall 4, Event.connectCall 4 (-1), Event.closeCall 4, Event.delay 200,
        Event.socketCall 5, Event.connectCall 5 (-1), Event.closeCall 5, Event.delay 200,
        Event.socketCall 6, Event.connectCall 6 0,
        Event.sendCall 6 (bytesOf "Temperatura: 25.50 °C, Humedad: 57.00 %") 40 40] :=
  (scenario_A 10 (List.replicate 128 0) (ret 3) (ret (-1)) (ret 4) (ret (-1)) (ret 5)
    (ret (-1)) (ret 6) (ret 0) (ret 40) (by decide) (by decide) (by decide) (by decide)
    (by decide) (by decide) (by decide) (by decide)).1

/-- C8 (no terminal state).  In every run every outcome is consumed by exactly one blocking
call, so the task performs as many `socket`, `connect`, `send` and `recv` calls as it is given
outcomes; and from every reachable state every outcome has a successor, again one of the four
call sites: `socket()` itself after any failure (creation failure, connect failure, send error,
receive error, peer close), the next call of the session otherwise. -/
theorem no_terminal_state (tick : Nat) (rx0 : List Nat) (inputs : List Outcome) (o : Outcome) :
    ((tcp_client_task tick (taskEntry rx0) inputs).2.filter Event.isBlockingCall).length =
        inputs.length ∧
      ∃ next acts,
        tcp_client_step tick (tcp_client_task tick (taskEntry rx0) inputs).1 o = (next, acts) ∧
        (acts.filter Event.isBlockingCall).length = 1 ∧
        ((tcp_client_task tick (taskEntry rx0) inputs).1.pc.Fails o → next.pc = Pc.atSocket) ∧
        (¬ (tcp_client_task tick (taskEntry rx0) inputs).1.pc.Fails o →
          next.pc = (tcp_client_task tick (taskEntry rx0) inputs).1.pc.onSuccess o) :=
  ⟨task_blocking_calls tick inputs _, _, _, rfl, step_blocking_calls tick _ o,
    (step_pc tick _ o).1, (step_pc tick _ o).2⟩

/-- C9 (stop-and-wait).  Every run is accepted by the stop-and-wait monitor started with no
socket: a `send` is issued only on a socket whose `connect` returned 0 and whose previous `recv`,
if any, returned a positive length; a successful `send` is followed by a `recv` on the same
socket before any other call on it; after a failed `connect`, `send` or `recv` the only call on
the socket is `close`. -/
theorem stop_and_wait (tick : Nat) (rx0 : List Nat) (inputs : List Outcome) :
    Phase.run Phase.idle (tcp_client_task tick (taskEntry rx0) inputs).2 =
      some (tcp_client_task tick (taskEntry rx0) inputs).1.pc.phase :=
  task_phase tick inputs (taskEntry rx0) trivial

/-- C10 (response buffer bound).  When every `recv` of a run returns at most the requested
length 127, every index of the store `rx_buffer[len] = 0` is between 1 and 127, inside the
128-byte buffer; and at every successful `recv` the logged buffer still has 128 bytes and has
the terminator at index `len`; when the `len` bytes stored by `recv` are `data`, the buffer
begins with them, so that the logged C string is the received bytes when none of them is NUL. -/
theorem terminator_store_in_bounds (tick : Nat) (rx0 : List Nat) (inputs : List Outcome)
    (hrx : rx0.length = RX_BUFFER_SIZE)
    (hc : RecvContractAlong tick (taskEntry rx0) inputs) :
    (∀ idx, Event.storeRx idx ∈ (tcp_client_task tick (taskEntry rx0) inputs).2 →
      1 ≤ idx ∧ idx ≤ 127) ∧
    (∀ pre o post s, inputs = pre ++ o :: post →
      (tcp_client_task tick (taskEntry rx0) pre).1.pc = Pc.atRecv s → 0 < o.ret →
      ∃ buf,
        tcp_client_step tick (tcp_client_task tick (taskEntry rx0) pre).1 o =
          (⟨Pc.atSend s, buf⟩,
            [Event.recvCall s 127 o.ret, Event.storeRx o.ret, Event.logResponse buf,
              Event.delay (2000 / tick)]) ∧
        1 ≤ o.ret ∧ o.ret ≤ 127 ∧ buf.length = 128 ∧ buf.get? o.ret.toNat = some 0 ∧
        (o.data.length = o.ret.toNat →
          buf.take o.ret.toNat = o.data ∧ (0 ∉ o.data → cString buf = o.data))) := by
  constructor
  · intro idx hidx
    exact task_store_index tick inputs _ idx hc hidx
  · intro pre o post s hsplit hpc hpos
    have h2 : o.ret ≤ 127 := by
      have ho := contract_at_recv tick pre (taskEntry rx0) o post s (hsplit ▸ hc) hpc
      simp only [RecvContract, RX_BUFFER_SIZE] at ho
      omega
    have hlen := task_buffer_length tick pre (taskEntry rx0) hrx
    generalize tcp_client_task tick (taskEntry rx0) pre = r at hpc hlen ⊢
    obtain ⟨⟨pc, b⟩, tr⟩ := r
    simp only at hpc hlen
    subst hpc
    have hneg : ¬ o.ret < 0 := by omega
    have hne : o.ret ≠ 0 := by omega
    have hrecv : (recvInto b (RX_BUFFER_SIZE - 1) o.data).length = 128 := by
      rw [recvInto_length _ _ _ (by rw [hlen]; decide), hlen]
      rfl
    have hbuf : ((recvInto b (RX_BUFFER_SIZE - 1) o.data).set o.ret.toNat 0).length = 128 := by
      rw [List.length_set, hrecv]
    refine ⟨(recvInto b (RX_BUFFER_SIZE - 1) o.data).set o.ret.toNat 0, ?_, by omega, h2, hbuf,
      ?_, ?_⟩
    · simp [tcp_client_step, hneg, hne, delayTicks, DELAY_MS, RX_BUFFER_SIZE]
    · rw [List.get?_eq_getElem?, List.getElem?_set_eq_of_lt]
      rw [hrecv]
      omega
    · intro hn
      have hd : o.data.length ≤ RX_BUFFER_SIZE - 1 := by
        simp only [RX_BUFFER_SIZE]
        omega
      obtain ⟨tail, htail⟩ := terminated_buffer b o.data hlen hd
      rw [← hn, htail, take_after_data]
      exact ⟨rfl, fun hz => cString_after_data _ _ hz⟩

/-- C10, at a concrete input: the two bytes "OK" are received on socket 3. -/
theorem terminator_store_in_bounds_witness :
    (List.replicate 128 7).length = RX_BUFFER_SIZE ∧
      RecvContractAlong 10 (taskEntry (List.replicate 128 7))
        [ret 3, ret 0, ret 40, ⟨2, [79, 75], true⟩] ∧
      ∃ buf,
        tcp_client_step 10
            (tcp_client_task 10 (taskEntry (List.replicate 128 7)) [ret 3, ret 0, ret 40]).1
            ⟨2, [79, 75], true⟩ =
          (⟨Pc.atSend 3, buf⟩,
            [Event.recvCall 3 127 2, Event.storeRx 2, Event.logResponse buf,
              Event.delay (2000 / 10)]) ∧
        (1 : Int) ≤ 2 ∧ (2 : Int) ≤ 127 ∧ buf.length = 128 ∧ buf.get? 2 = some 0 ∧
        ([79, 75].length = 2 →
          buf.take 2 = [79, 75] ∧ (0 ∉ [79, 75] → cString buf = [79, 75])) :=
  ⟨by simp [RX_BUFFER_SIZE],
    by simp [RecvContractAlong, RecvContract, tcp_client_step, taskEntry, ret, RX_BUFFER_SIZE],
    (terminator_store_in_bounds 10 (List.replicate 128 7)
      [ret 3, ret 0, ret 40, ⟨2, [79, 75], true⟩] (by simp [RX_BUFFER_SIZE])
      (by simp [RecvContractAlong, RecvContract, tcp_client_step, taskEntry, ret,
        RX_BUFFER_SIZE])).2
      [ret 3, ret 0, ret 40] ⟨2, [79, 75], true⟩ [] 3 rfl (by decide) (by decide)⟩

end Bme688
